import Mathlib

/-!
Verification of the mahjong scoring engine in `src/lib/mahjong.ts`.

Tiles are strings (`Tile = string` in the source).  JavaScript
`Record<string, number>` tile-count maps are embedded as insertion-ordered
association lists with unique keys (`TileCounts`); `tileCounts[t]` with a
missing key yields `undefined`, whose numeric comparisons are all false, so
the lookup defaults to 0.  Decrements in the source (`remaining[tile] -= 3`)
keep the key with the reduced value, which `decBy` mirrors.
-/

abbrev Tile := String

abbrev TileCounts := List (Tile × Nat)

/-- `tileCounts[t]` with default 0 (JS `counts[tile] || 0` / falsy `undefined`). -/
def lookup (m : TileCounts) (t : Tile) : Nat :=
  match m with
  | [] => 0
  | (k, v) :: rest => if k = t then v else lookup rest t

/-- `counts[tile] = (counts[tile] || 0) + 1`: bump an existing key in place,
otherwise append the new key (JS object insertion order). -/
def incr (m : TileCounts) (t : Tile) : TileCounts :=
  match m with
  | [] => [(t, 1)]
  | (k, v) :: rest => if k = t then (k, v + 1) :: rest else (k, v) :: incr rest t

/-- Subtract `n` from the value stored at key `t` (the key is kept, as in the
JS spread-and-decrement idiom).  Truncated at 0; every source call site has
first checked that the stored value is at least `n`. -/
def decBy (m : TileCounts) (t : Tile) (n : Nat) : TileCounts :=
  match m with
  | [] => []
  | (k, v) :: rest => if k = t then (k, v - n) :: rest else (k, v) :: decBy rest t n

/-- Total number of tiles described by a count map. -/
def totalCount (m : TileCounts) : Nat := (m.map (·.2)).sum

/-- `countTiles` from the source: build the tile-count record of a hand. -/
def countTiles (tiles : List Tile) : TileCounts :=
  tiles.foldl (fun m t => incr m t) []

/-- `TILE_ORDER` (total order used for canonical sorting); tiles outside the
34-symbol alphabet get order 0 — the JS comparator returns `NaN` for them,
and no behaviour verified below depends on how such tiles sort. -/
def tileOrder (t : Tile) : Nat :=
  if t = "1m" then 1 else if t = "2m" then 2 else if t = "3m" then 3
  else if t = "4m" then 4 else if t = "5m" then 5 else if t = "6m" then 6
  else if t = "7m" then 7 else if t = "8m" then 8 else if t = "9m" then 9
  else if t = "1p" then 11 else if t = "2p" then 12 else if t = "3p" then 13
  else if t = "4p" then 14 else if t = "5p" then 15 else if t = "6p" then 16
  else if t = "7p" then 17 else if t = "8p" then 18 else if t = "9p" then 19
  else if t = "1s" then 21 else if t = "2s" then 22 else if t = "3s" then 23
  else if t = "4s" then 24 else if t = "5s" then 25 else if t = "6s" then 26
  else if t = "7s" then 27 else if t = "8s" then 28 else if t = "9s" then 29
  else if t = "東" then 31 else if t = "南" then 32 else if t = "西" then 33
  else if t = "北" then 34 else if t = "白" then 35 else if t = "發" then 36
  else if t = "中" then 37 else 0

/-- Stable insertion into a list sorted by a numeric key. -/
def insertByKey (key : Tile → Nat) (t : Tile) : List Tile → List Tile
  | [] => [t]
  | x :: xs => if key t < key x then t :: x :: xs else x :: insertByKey key t xs

/-- Stable sort by a numeric key (JS `Array.sort` with a numeric comparator). -/
def sortByKey (key : Tile → Nat) : List Tile → List Tile
  | [] => []
  | x :: xs => insertByKey key x (sortByKey key xs)

/-- `sortHand`: sort tiles by `TILE_ORDER`. -/
def sortHand (tiles : List Tile) : List Tile := sortByKey tileOrder tiles

/-- Decimal digit value of a character, if any (`parseInt` on one character). -/
def digitVal (c : Char) : Option Nat :=
  if 48 ≤ c.toNat ∧ c.toNat ≤ 57 then some (c.toNat - 48) else none

/-- `parseTile`: a two-character tile splits into (`parseInt(tile[0])`,
`tile[1]`); anything else yields `[null, null]`.  `parseInt` of a non-digit
character is `NaN`, which every caller treats exactly like `null`, so both
map to `none`. -/
def parseTile (t : Tile) : Option Nat × Option String :=
  match t.data with
  | [c0, c1] => (digitVal c0, some (String.mk [c1]))
  | _ => (none, none)

/-- Yaochuhai list used by `isWinningHand` and `isKokushi`. -/
def yaochuhaiList : List Tile :=
  ["1m", "9m", "1p", "9p", "1s", "9s", "東", "南", "西", "北", "白", "發", "中"]

/-- `checkMentsu`: recursively try to split the counts into exactly `count`
groups (triplet first, then run).  Iteration over the object's keys is an
existence test, so it is embedded as `List.any` over the entries; conditions
read the map through `lookup`, mirroring `tiles[tile]`.  The JS recursion on
an already-negative `count` always returns false; it is embedded with a
`Nat` count, and every verified call site has `count ≥ 0`. -/
def checkMentsu (m : TileCounts) (count : Nat) : Bool :=
  match count with
  | 0 => m.all (fun e => e.2 = 0)
  | c + 1 =>
    (m.any (fun e =>
      decide (3 ≤ lookup m e.1) && checkMentsu (decBy m e.1 3) c)) ||
    (m.any (fun e =>
      decide (0 < lookup m e.1) &&
      (match parseTile e.1 with
       | (some n, some s) =>
         decide (n ≠ 0) && decide (n ≤ 7) &&
         (let t2 := Nat.repr (n + 1) ++ s
          let t3 := Nat.repr (n + 2) ++ s
          decide (0 < lookup m t2) && decide (0 < lookup m t3) &&
          checkMentsu (decBy (decBy (decBy m e.1 1) t2 1) t3 1) c)
       | _ => false)))

/-- `checkNormalWinningHand`: choose a pair, then split the rest into
`required` groups. -/
def checkNormalWinningHand (tc : TileCounts) (required : Nat) : Bool :=
  tc.any (fun e =>
    decide (2 ≤ lookup tc e.1) && checkMentsu (decBy tc e.1 2) required)

/-- The inline seven-pairs test used by `isWinningHand`, `detectYaku` and
`calculateFu`: `Object.values(tileCounts).filter(c => c === 2).length === 7`. -/
def sevenPairsLike (tc : TileCounts) : Bool :=
  ((tc.map (·.2)).filter (fun c => c == 2)).length == 7

inductive MeldType | chii | pon | minkan | ankan
deriving DecidableEq

structure Meld where
  type : MeldType
  tiles : List Tile
deriving DecidableEq

/-- `isWinningHand(hand, melds?)`: seven pairs or all-yaochuhai-present (both
closed only), else a pair plus `4 - meldCount` groups.  The `melds?` optional
parameter defaults to the empty list. -/
def isWinningHand (hand : List Tile) (melds : List Meld) : Bool :=
  let tileCounts := countTiles hand
  let meldCount := melds.length
  let hasMelds := decide (0 < meldCount)
  if !hasMelds && sevenPairsLike tileCounts then true
  else if !hasMelds && yaochuhaiList.all (fun t => decide (1 ≤ lookup tileCounts t)) then true
  else checkNormalWinningHand tileCounts (4 - meldCount)

/-- `isKokushi`: all thirteen yaochuhai present and nothing else, closed only. -/
def isKokushi (hand : List Tile) (melds : List Meld) : Bool :=
  if decide (0 < melds.length) then false
  else
    let tileCounts := countTiles hand
    if !(yaochuhaiList.all (fun t => decide (1 ≤ lookup tileCounts t))) then false
    else tileCounts.all (fun e => yaochuhaiList.contains e.1)

/-! ## Decomposition engine

The second (internal) `MeldType`/`Meld` declarations of the source, used by
the decomposition search, are embedded as `MeldS`. -/

inductive MeldSType | shuntsu | koutsu | kantsu
deriving DecidableEq

structure MeldS where
  type : MeldSType
  tiles : List Tile
deriving DecidableEq

structure HandShape where
  pair : Tile
  melds : List MeldS
deriving DecidableEq

structure MentsuPattern where
  jantou : Tile
  mentsu : List (List Tile)
deriving DecidableEq

def MeldSType.str : MeldSType → String
  | .shuntsu => "shuntsu"
  | .koutsu => "koutsu"
  | .kantsu => "kantsu"

/-- `generateMeldCombinations` (without the memo table, which only avoids
recomputation and cannot change the returned value).  The JS recursion
terminates because each call removes three tiles; here that measure is made
explicit as a `fuel` argument, always called with more fuel than tiles so the
zero-fuel branch is unreachable. -/
def generateMeldCombinations (counts : TileCounts) (fuel : Nat) : List (List MeldS) :=
  match fuel with
  | 0 => []
  | fuel + 1 =>
    if totalCount counts = 0 then [[]]
    else
      let tiles := sortByKey tileOrder
        ((counts.filter (fun e => decide (0 < e.2))).map (·.1))
      match tiles with
      | [] => []
      | targetTile :: _ =>
        let koutsuResults :=
          if 3 ≤ lookup counts targetTile then
            (generateMeldCombinations (decBy counts targetTile 3) fuel).map
              (fun melds => ⟨.koutsu, [targetTile, targetTile, targetTile]⟩ :: melds)
          else []
        let shuntsuResults :=
          match parseTile targetTile with
          | (some n, some s) =>
            if n ≠ 0 ∧ n ≤ 7 then
              let tile2 := Nat.repr (n + 1) ++ s
              let tile3 := Nat.repr (n + 2) ++ s
              if 0 < lookup counts tile2 ∧ 0 < lookup counts tile3 then
                (generateMeldCombinations
                    (decBy (decBy (decBy counts targetTile 1) tile2 1) tile3 1) fuel).map
                  (fun melds => ⟨.shuntsu, [targetTile, tile2, tile3]⟩ :: melds)
              else []
            else []
          | _ => []
        koutsuResults ++ shuntsuResults

/-- Lexicographic insertion for JS default string sort (UTF-16 code-unit
order; all tiles are BMP characters, where code-unit and code-point order
coincide). -/
def insertStr (s : String) : List String → List String
  | [] => [s]
  | x :: xs => if s < x then s :: x :: xs else x :: insertStr s xs

def sortStrings : List String → List String
  | [] => []
  | x :: xs => insertStr x (sortStrings xs)

/-- `serializeHandShape`: canonical dedup key of a decomposition. -/
def serializeHandShape (shape : HandShape) : String :=
  let meldKey := String.intercalate "|"
    (sortStrings (shape.melds.map
      (fun m => m.type.str ++ ":" ++ String.intercalate "," (sortHand m.tiles))))
  shape.pair ++ "|" ++ meldKey

/-- `buildHandShapes`: for every pair candidate, enumerate decompositions of
the remainder, de-duplicated by serialized key (`seen` set). -/
def buildHandShapes (hand : List Tile) : List HandShape :=
  let counts := countTiles hand
  (counts.foldl (fun acc e =>
    if 2 ≤ lookup counts e.1 then
      let remaining := decBy counts e.1 2
      let meldOptions := generateMeldCombinations remaining (totalCount remaining + 1)
      meldOptions.foldl (fun acc melds =>
        let shape : HandShape := ⟨e.1, melds⟩
        let key := serializeHandShape shape
        if acc.1.contains key then acc
        else (key :: acc.1, acc.2 ++ [shape])) acc
    else acc) (([] : List String), ([] : List HandShape))).2

def getMentsuPatterns (hand : List Tile) : List MentsuPattern :=
  (buildHandShapes hand).map (fun shape =>
    ⟨shape.pair, shape.melds.map (fun meld => meld.tiles)⟩)

/-- `isShuntsu`: three consecutive numbers of one suit. -/
def isShuntsu (tiles : List Tile) : Bool :=
  if tiles.length ≠ 3 then false
  else
    match sortHand tiles with
    | [a, b, c] =>
      match parseTile a, parseTile b, parseTile c with
      | (some n1, s1), (some n2, s2), (some n3, s3) =>
        if s1 ≠ s2 ∨ s2 ≠ s3 then false
        else decide (n2 = n1 + 1) && decide (n3 = n2 + 1)
      | _, _, _ => false
    | _ => false

def BAKAZE_MAP (s : String) : Option String :=
  if s = "ton" then some "東" else if s = "nan" then some "南"
  else if s = "sha" then some "西" else if s = "pei" then some "北"
  else none

def JIKAZE_MAP (s : String) : Option String := BAKAZE_MAP s

/-- `isYakuhai(tile, bakaze?, jikaze?)`: dragons always, winds when they match
the round or seat wind (an absent or unknown wind name matches nothing). -/
def isYakuhai (tile : Tile) (bakaze jikaze : Option String) : Bool :=
  if tile = "白" ∨ tile = "發" ∨ tile = "中" then true
  else if (bakaze.bind BAKAZE_MAP) = some tile then true
  else if (jikaze.bind JIKAZE_MAP) = some tile then true
  else false

/-- `isRyanmenWaitForPattern`: the wait is open iff, within the decomposition,
the first group containing the winning tile is a run with the winning tile at
one end and that end is not blocked by the 1/9 suit boundary. -/
def isRyanmenWaitForPattern (pattern : MentsuPattern) (winningTile : Tile) : Bool :=
  if pattern.jantou = winningTile then false
  else
    match pattern.mentsu.find? (fun mentsu => mentsu.contains winningTile) with
    | none => false
    | some targetMentsu =>
      if targetMentsu.length ≠ 3 then false
      else if !isShuntsu targetMentsu then false
      else
        match sortHand targetMentsu with
        | [a, _, c] =>
          let isLowest := winningTile == a
          let isHighest := winningTile == c
          if !isLowest && !isHighest then false
          else
            match (parseTile a).1, (parseTile c).1 with
            | some firstNum, some thirdNum =>
              if (isHighest && decide (firstNum = 1)) ||
                 (isLowest && decide (thirdNum = 9)) then false
              else true
            | _, _ => false
        | _ => false

def isRyanmenWait (hand : List Tile) (winningTile : Tile)
    (targetPattern : Option MentsuPattern) : Bool :=
  let patterns := match targetPattern with
    | some p => [p]
    | none => getMentsuPatterns hand
  patterns.any (fun pattern => isRyanmenWaitForPattern pattern winningTile)

/-- `isPinfu`: closed hand with a decomposition of runs only, a non-value
pair, and an open wait (per `isRyanmenWaitForPattern`) in that decomposition. -/
def isPinfu (hand : List Tile) (winningTile : Tile) (isMenzen : Bool)
    (bakaze jikaze : Option String) : Bool :=
  if !isMenzen then false
  else
    let patterns := getMentsuPatterns hand
    if patterns.length = 0 then false
    else
      patterns.any (fun pattern =>
        if !(pattern.mentsu.all (fun mentsu => isShuntsu mentsu)) then false
        else if isYakuhai pattern.jantou bakaze jikaze then false
        else isRyanmenWait hand winningTile (some pattern))

/-! ## Yaku detection -/

structure Yaku where
  name : String
  han : Nat
deriving DecidableEq

/-- `AgariOptions` (the fields the engine reads; optional fields are
`Option`-valued and default to absent, i.e. falsy/empty). -/
structure AgariOptions where
  isTsumo : Bool
  bakaze : String
  jikaze : String
  isRiichi : Bool
  isIppatsu : Bool
  isMenzen : Bool
  melds : Option (List Meld)
  isTenhou : Option Bool
  isChiihou : Option Bool
deriving DecidableEq

/-- All physical tiles: concealed hand followed by each meld's tiles. -/
def allTilesOf (hand : List Tile) (melds : List Meld) : List Tile :=
  hand ++ (melds.map Meld.tiles).flatten

/-- `isTanyao`: every tile (melds included) is a simple 2–8 suit tile. -/
def isTanyao (hand : List Tile) (melds : List Meld) : Bool :=
  (allTilesOf hand melds).all (fun tile =>
    match (parseTile tile).1 with
    | some num => decide (2 ≤ num) && decide (num ≤ 8)
    | none => false)

/-- `detectYakuhai`: dragon triplets and round/seat wind triplets (a matching
round-and-seat wind counts once for 2 han).  Hands containing the literal
string "undefined" as a tile are not modelled (the JS key coercion for an
unknown wind name could only see such a tile). -/
def detectYakuhai (hand : List Tile) (bakaze jikaze : String)
    (melds : List Meld) : List Yaku :=
  let tileCounts := countTiles (allTilesOf hand melds)
  let dragons :=
    (if 3 ≤ lookup tileCounts "白" then [⟨"白", 1⟩] else []) ++
    (if 3 ≤ lookup tileCounts "發" then [⟨"發", 1⟩] else []) ++
    (if 3 ≤ lookup tileCounts "中" then [⟨"中", 1⟩] else [])
  let winds : List Yaku :=
    match BAKAZE_MAP bakaze, JIKAZE_MAP jikaze with
    | some bt, some jt =>
      if bt = jt then
        if 3 ≤ lookup tileCounts bt then [⟨"場風・自風 " ++ bt, 2⟩] else []
      else
        (if 3 ≤ lookup tileCounts bt then [⟨"場風 " ++ bt, 1⟩] else []) ++
        (if 3 ≤ lookup tileCounts jt then [⟨"自風 " ++ jt, 1⟩] else [])
    | some bt, none =>
      if 3 ≤ lookup tileCounts bt then [⟨"場風 " ++ bt, 1⟩] else []
    | none, some jt =>
      if 3 ≤ lookup tileCounts jt then [⟨"自風 " ++ jt, 1⟩] else []
    | none, none => []
  dragons ++ winds

/-- `isToitoihou`: at least four triplets counting concealed triplet values
and pon/kan melds. -/
def isToitoihou (hand : List Tile) (melds : List Meld) : Bool :=
  let tileCounts := countTiles hand
  let koutsu := (tileCounts.filter (fun e => 3 ≤ lookup tileCounts e.1)).length
  let meldKoutsu := (melds.filter (fun meld =>
    meld.type = .pon ∨ meld.type = .minkan ∨ meld.type = .ankan)).length
  4 ≤ koutsu + meldKoutsu

/-- Number of tile values with count at least 3 in a count map. -/
def tripleKeyCount (tc : TileCounts) : Nat :=
  (tc.filter (fun e => 3 ≤ lookup tc e.1)).length

/-- `countAnkou`: concealed-triplet count of the 14 tiles, clamped to 3;
it ignores the winning tile and the tsumo/ron distinction. -/
def countAnkou (hand : List Tile) : Nat :=
  min (tripleKeyCount (countTiles hand)) 3

/-- `isHonroutou`: terminals and honors only. -/
def isHonroutou (hand : List Tile) (melds : List Meld) : Bool :=
  (allTilesOf hand melds).all (fun tile =>
    if tile.length = 1 then true
    else match (parseTile tile).1 with
      | some num => decide (num = 1) || decide (num = 9)
      | none => false)

/-- `isShouSangen`: two dragon triplets plus a dragon pair. -/
def isShouSangen (tileCounts : TileCounts) : Bool :=
  let sangenCount := (["白", "發", "中"].filter
    (fun t => 3 ≤ lookup tileCounts t)).length
  let sangenPair := (["白", "發", "中"].filter
    (fun t => lookup tileCounts t = 2)).length
  sangenCount == 2 && sangenPair == 1

/-- Suit letters plus an honor flag, accumulated over all tiles, for the
flush detectors (a `Set<string>` of second characters and `hasJihai`). -/
def suitsAndJihai (tiles : List Tile) : List String × Bool :=
  tiles.foldl (fun acc t =>
    match t.data with
    | [_, c1] =>
      let s := String.mk [c1]
      (if acc.1.contains s then acc.1 else acc.1 ++ [s], acc.2)
    | _ => (acc.1, true)) ([], false)

/-- `isHonitsu`: one suit plus honors. -/
def isHonitsu (hand : List Tile) (melds : List Meld) : Bool :=
  let st := suitsAndJihai (allTilesOf hand melds)
  st.1.length == 1 && st.2

/-- `isChinitsu`: one suit and nothing else. -/
def isChinitsu (hand : List Tile) (melds : List Meld) : Bool :=
  let allTiles := allTilesOf hand melds
  let st := suitsAndJihai allTiles
  st.1.length == 1 && allTiles.all (fun t => t.length = 2)

/-- `isSuuankou`: four concealed triplets, closed only; on a discard win a
triplet of the winning tile does not count. -/
def isSuuankou (hand : List Tile) (winningTile : Tile) (isTsumo : Bool)
    (melds : List Meld) : Bool :=
  if decide (0 < melds.length) then false
  else
    let tileCounts := countTiles hand
    if !isTsumo && decide (lookup tileCounts winningTile = 3) then false
    else ((tileCounts.map (·.2)).filter (fun c => 3 ≤ c)).length == 4

/-- `isDaisangen`: all three dragons as triplets (melds included). -/
def isDaisangen (hand : List Tile) (melds : List Meld) : Bool :=
  let tileCounts := countTiles (allTilesOf hand melds)
  decide (3 ≤ lookup tileCounts "白") && decide (3 ≤ lookup tileCounts "發") &&
    decide (3 ≤ lookup tileCounts "中")

/-- `isTsuuiisou`: honors only. -/
def isTsuuiisou (hand : List Tile) (melds : List Meld) : Bool :=
  (allTilesOf hand melds).all (fun tile => tile.length = 1)

/-- `isRyuuiisou`: green tiles only. -/
def isRyuuiisou (hand : List Tile) (melds : List Meld) : Bool :=
  (allTilesOf hand melds).all (fun tile =>
    (["2s", "3s", "4s", "6s", "8s", "發"] : List Tile).contains tile)

/-- `isChinroutou`: terminals only. -/
def isChinroutou (hand : List Tile) (melds : List Meld) : Bool :=
  (allTilesOf hand melds).all (fun tile =>
    match (parseTile tile).1 with
    | some num => decide (num = 1) || decide (num = 9)
    | none => false)

/-- The 1..9 scan of `isChuurenPoutou`: `none` when some count falls below
the 1112345678999 pattern, otherwise the surplus tile count. -/
def chuurenScan (tileCounts : TileCounts) (suit : String) :
    List Nat → Nat → Option Nat
  | [], extra => some extra
  | i :: rest, extra =>
    let expected := if i = 1 ∨ i = 9 then 3 else 1
    let actual := lookup tileCounts (Nat.repr i ++ suit)
    if actual < expected then none
    else chuurenScan tileCounts suit rest (extra + (actual - expected))

/-- `isChuurenPoutou`: closed pure flush in the 1112345678999+1 shape.  The
source reads `hand[0][1]` after the `isChinitsu` guard, which ensures the
hand is nonempty with two-character tiles; the fallback branches below are
unreachable. -/
def isChuurenPoutou (hand : List Tile) (melds : List Meld) : Bool :=
  if decide (0 < melds.length) then false
  else if !isChinitsu hand melds then false
  else
    let tileCounts := countTiles hand
    match hand with
    | [] => false
    | t :: _ =>
      match t.data with
      | [_, c1] =>
        let suit := String.mk [c1]
        match chuurenScan tileCounts suit [1, 2, 3, 4, 5, 6, 7, 8, 9] 0 with
        | none => false
        | some extra => extra == 1
      | _ => false

/-- `isShousuushii`: three wind triplets plus a wind pair (melds included). -/
def isShousuushii (hand : List Tile) (melds : List Meld) : Bool :=
  let tileCounts := countTiles (allTilesOf hand melds)
  let winds : List Tile := ["東", "南", "西", "北"]
  let koutsuCount := (winds.filter (fun w => 3 ≤ lookup tileCounts w)).length
  let pairCount := (winds.filter (fun w => lookup tileCounts w = 2)).length
  koutsuCount == 3 && pairCount == 1

/-- `isDaisuushii`: all four winds as triplets (melds included). -/
def isDaisuushii (hand : List Tile) (melds : List Meld) : Bool :=
  let tileCounts := countTiles (allTilesOf hand melds)
  (["東", "南", "西", "北"] : List Tile).all
    (fun w => 3 ≤ lookup tileCounts w)

/-- The ordinary (non-limit) yaku accumulation of `detectYaku`, in the
source's push order. -/
def ordinaryYaku (hand : List Tile) (winningTile : Tile)
    (options : AgariOptions) : List Yaku :=
  let tileCounts := countTiles hand
  let melds := options.melds.getD []
  let hasMelds := decide (0 < melds.length)
  (if options.isRiichi && !hasMelds then
    ⟨"リーチ", 1⟩ :: (if options.isIppatsu then [⟨"一発", 1⟩] else [])
   else []) ++
  (if options.isTsumo && options.isMenzen && !hasMelds then
    [⟨"門前清自摸和", 1⟩] else []) ++
  (if isTanyao hand melds then [⟨"断么九", 1⟩] else []) ++
  (if isPinfu hand winningTile options.isMenzen (some options.bakaze)
      (some options.jikaze) && !hasMelds then [⟨"平和", 1⟩] else []) ++
  detectYakuhai hand options.bakaze options.jikaze melds ++
  (if !hasMelds && sevenPairsLike tileCounts then [⟨"七対子", 2⟩] else []) ++
  (if isToitoihou hand melds then [⟨"対々和", 2⟩] else []) ++
  (if countAnkou hand == 3 then [⟨"三暗刻", 2⟩] else []) ++
  (if isHonroutou hand melds then [⟨"混老頭", 2⟩] else []) ++
  (if isShouSangen tileCounts then [⟨"小三元", 2⟩] else []) ++
  (if isHonitsu hand melds then
    [⟨"混一色", if hasMelds then 2 else 3⟩] else []) ++
  (if isChinitsu hand melds then
    [⟨"清一色", if hasMelds then 5 else 6⟩] else [])

/-- `detectYaku`: limit hands and instant wins short-circuit in a fixed
order; otherwise the ordinary yaku accumulate. -/
def detectYaku (hand : List Tile) (winningTile : Tile)
    (options : AgariOptions) : List Yaku :=
  let melds := options.melds.getD []
  if options.isTenhou.getD false then [⟨"天和", 13⟩]
  else if options.isChiihou.getD false then [⟨"地和", 13⟩]
  else if isDaisuushii hand melds then [⟨"大四喜", 26⟩]
  else if isKokushi hand melds then [⟨"国士無双", 13⟩]
  else if isSuuankou hand winningTile options.isTsumo melds then [⟨"四暗刻", 13⟩]
  else if isDaisangen hand melds then [⟨"大三元", 13⟩]
  else if isTsuuiisou hand melds then [⟨"字一色", 13⟩]
  else if isRyuuiisou hand melds then [⟨"緑一色", 13⟩]
  else if isChinroutou hand melds then [⟨"清老頭", 13⟩]
  else if isChuurenPoutou hand melds then [⟨"九蓮宝燈", 13⟩]
  else if isShousuushii hand melds then [⟨"小四喜", 13⟩]
  else ordinaryYaku hand winningTile options

/-- Names of the limit-hand / instant-win entries `detectYaku` can emit. -/
def limitNames : List String :=
  ["天和", "地和", "大四喜", "国士無双", "四暗刻", "大三元", "字一色",
   "緑一色", "清老頭", "九蓮宝燈", "小四喜"]

/-- Whether some limit-hand or instant-win branch of `detectYaku` fires. -/
def limitDetected (hand : List Tile) (winningTile : Tile)
    (options : AgariOptions) : Bool :=
  let melds := options.melds.getD []
  options.isTenhou.getD false || options.isChiihou.getD false ||
  isDaisuushii hand melds || isKokushi hand melds ||
  isSuuankou hand winningTile options.isTsumo melds ||
  isDaisangen hand melds || isTsuuiisou hand melds ||
  isRyuuiisou hand melds || isChinroutou hand melds ||
  isChuurenPoutou hand melds || isShousuushii hand melds

/-! ## Fu calculation -/

inductive WaitPattern | ryanmen | shanpon | penchan | kanchan | tanki
deriving DecidableEq

/-- `detectWaitPattern`: classify the wait from the 14 tiles and the winning
tile.  The `${num - 2}${suit}` style keys are built from the signed number,
matching the JS template string (e.g. `-1m`), and miss the count map. -/
def detectWaitPattern (hand : List Tile) (winningTile : Tile) : WaitPattern :=
  let tileCounts := countTiles hand
  if lookup tileCounts winningTile = 2 then .tanki
  else if lookup tileCounts winningTile = 3 then .shanpon
  else
    match parseTile winningTile with
    | (some num, some suit) =>
      if num ≠ 0 then
        let tile1 := Int.repr ((num : Int) - 2) ++ suit
        let tile2 := Int.repr ((num : Int) - 1) ++ suit
        let tile3 := Nat.repr (num + 1) ++ suit
        let tile4 := Nat.repr (num + 2) ++ suit
        if num = 3 ∧ 1 ≤ lookup tileCounts tile2 ∧ 1 ≤ lookup tileCounts tile1 then
          .penchan
        else if num = 7 ∧ 1 ≤ lookup tileCounts tile3 ∧ 1 ≤ lookup tileCounts tile4 then
          .penchan
        else if 2 ≤ num ∧ num ≤ 8 ∧ 1 ≤ lookup tileCounts tile2 ∧
            1 ≤ lookup tileCounts tile3 then
          let hasRyanmen :=
            (decide (3 ≤ num) && decide (1 ≤ lookup tileCounts tile1) &&
              decide (1 ≤ lookup tileCounts tile2)) ||
            (decide (num ≤ 7) && decide (1 ≤ lookup tileCounts tile3) &&
              decide (1 ≤ lookup tileCounts tile4))
          if !hasRyanmen then .kanchan else .ryanmen
        else .ryanmen
      else .tanki
    | _ => .tanki

/-- `getConcealedTriplets`: values forming concealed triplets, computed on
the hand with every copy of the winning tile removed (so the
`tile === winningTile` branch of the source is vacuous, as in the JS). -/
def getConcealedTriplets (hand : List Tile) (winningTile : Tile)
    (isTsumo : Bool) : List Tile :=
  let tileCounts := countTiles (hand.filter (fun t => t ≠ winningTile))
  tileCounts.foldl (fun acc e =>
    let tile := e.1
    if isTsumo && decide (3 ≤ lookup tileCounts tile) then acc ++ [tile]
    else if !isTsumo then
      if tile = winningTile then
        if lookup tileCounts tile = 3 then acc ++ [tile] else acc
      else if 3 ≤ lookup tileCounts tile then acc ++ [tile]
      else acc
    else acc) []

/-- Terminal-or-honor test as written inline in `calculateFu`
(`tile.length === 1 || tile[0] === '1' || tile[0] === '9'`). -/
def fuYaochu (tile : Tile) : Bool :=
  decide (tile.length = 1) || tile.data.head? == some '1' ||
    tile.data.head? == some '9'

/-- `calculateFu`: 25 for seven pairs, 20 for a closed tsumo pinfu, otherwise
base 20 plus tsumo / closed-ron / pair / triplet / meld / wait contributions,
rounded up to the next 10 and floored at 30 when any meld is present.
The source reads `meld.tiles[0]`; for a meld with no tiles the JS throws, and
the embedding's `headD ""` default is unreachable for well-formed melds. -/
def calculateFu (hand : List Tile) (winningTile : Tile)
    (isTsumo isMenzen : Bool) (bakaze jikaze : Option String)
    (melds : List Meld) : Nat :=
  let tileCounts := countTiles hand
  if sevenPairsLike tileCounts then 25
  else if isTsumo && isMenzen &&
      isPinfu hand winningTile isMenzen bakaze jikaze then 20
  else
    let fu1 : Nat := 20 + (if isTsumo then 2 else 0)
    let hasMelds := decide (0 < melds.length)
    let fu2 : Nat := fu1 + (if !isTsumo && isMenzen && !hasMelds then 10 else 0)
    let bakazeTile := bakaze.bind BAKAZE_MAP
    let jikazeTile := jikaze.bind JIKAZE_MAP
    let pairFu := tileCounts.foldl (fun acc e =>
      if lookup tileCounts e.1 = 2 then
        if e.1 = "白" ∨ e.1 = "發" ∨ e.1 = "中" then acc + 2
        else if bakazeTile = some e.1 then acc + 2
        else if jikazeTile = some e.1 then acc + 2
        else acc
      else acc) 0
    let concealedTriplets := getConcealedTriplets hand winningTile isTsumo
    let tripletFu := tileCounts.foldl (fun acc e =>
      let tile := e.1
      if 3 ≤ lookup tileCounts tile then
        let isConcealed := concealedTriplets.contains tile
        if lookup tileCounts tile = 4 then
          if fuYaochu tile then acc + (if isConcealed then 32 else 16)
          else acc + (if isConcealed then 16 else 8)
        else
          if fuYaochu tile then acc + (if isConcealed then 8 else 4)
          else acc + (if isConcealed then 4 else 2)
      else acc) 0
    let meldFu := melds.foldl (fun acc meld =>
      let tile := meld.tiles.headD ""
      match meld.type with
      | .pon => acc + (if fuYaochu tile then 4 else 2)
      | .minkan => acc + (if fuYaochu tile then 16 else 8)
      | .ankan => acc + (if fuYaochu tile then 32 else 16)
      | .chii => acc) 0
    let waitPattern := detectWaitPattern hand winningTile
    let waitFu : Nat := if waitPattern = .penchan ∨ waitPattern = .kanchan ∨
        waitPattern = .tanki then 2 else 0
    let fuSum : Nat := fu2 + pairFu + tripletFu + meldFu + waitFu
    let rounded : Nat := ((fuSum + 9) / 10) * 10
    if hasMelds && decide (rounded < 30) then 30 else rounded

/-! ## Score resolution -/

/-- `Math.ceil(n / 100) * 100` for natural `n`. -/
def roundUp100 (n : Nat) : Nat := ((n + 99) / 100) * 100

/-- `calculateFinalScore`: fixed bases from mangan up (han ≥ 5), otherwise
`fu × 2^(2 + han)`, then the dealer/non-dealer and tsumo/ron payment split,
each amount rounded up to the next 100. -/
def calculateFinalScore (han fu : Nat) (isOya isTsumo : Bool) : String :=
  let baseScore :=
    if 5 ≤ han then
      if han ≤ 5 then 2000
      else if han ≤ 7 then 3000
      else if han ≤ 10 then 4000
      else if han ≤ 12 then 6000
      else 8000
    else fu * 2 ^ (2 + han)
  if isOya then
    if isTsumo then
      let perPerson := roundUp100 (baseScore * 2)
      Nat.repr perPerson ++ "点オール（合計" ++ Nat.repr (perPerson * 3) ++ "点）"
    else Nat.repr (roundUp100 (baseScore * 6)) ++ "点"
  else
    if isTsumo then
      let ko := roundUp100 baseScore
      let oya := roundUp100 (baseScore * 2)
      "子: " ++ Nat.repr ko ++ "点、親: " ++ Nat.repr oya ++ "点（合計" ++
        Nat.repr (ko * 2 + oya) ++ "点）"
    else Nat.repr (roundUp100 (baseScore * 4)) ++ "点"

structure CalculationResult where
  han : Nat
  fu : Nat
  score : String
  yaku : List Yaku
deriving DecidableEq

inductive ScoreResult
  | ok (result : CalculationResult)
  | error (msg : String)
deriving DecidableEq

def ScoreResult.isErr : ScoreResult → Bool
  | .ok _ => false
  | .error _ => true

/-- `calculateScore`: the orchestration entry point.  Validation order:
hand size against `14 − (physical meld tile count) − 1`, then a present
winning tile (`!winningTile` is JS falsiness, i.e. the empty string), then
the winning shape, then a nonempty yaku list. -/
def calculateScore (hand : List Tile) (winningTile : Tile)
    (options : AgariOptions) : ScoreResult :=
  let melds := options.melds.getD []
  let meldTileCount := (melds.map (fun m => m.tiles.length)).sum
  let expectedHandSize : Int := 14 - meldTileCount
  if (hand.length : Int) ≠ expectedHandSize - 1 then
    .error ("手牌は" ++ Int.repr (expectedHandSize - 1) ++ "枚必要です（鳴き" ++
      Nat.repr melds.length ++ "回）")
  else if winningTile = "" then .error "和了牌を選択してください"
  else
    let fullHand := hand ++ [winningTile]
    if !isWinningHand fullHand melds then .error "和了形ではありません"
    else
      let yaku := detectYaku fullHand winningTile options
      if yaku.length = 0 then .error "役がありません"
      else
        let totalHan := (yaku.map Yaku.han).sum
        let fu := calculateFu fullHand winningTile options.isTsumo
          options.isMenzen (some options.bakaze) (some options.jikaze) melds
        let score := calculateFinalScore totalHan fu
          (options.jikaze == "ton") options.isTsumo
        .ok ⟨totalHan, fu, score, yaku⟩

/-- Baseline options mirroring the test suite's closed tsumo setup. -/
def baseOptions : AgariOptions :=
  ⟨true, "ton", "nan", false, false, true, none, none, none⟩

/-! ## Specification-side definitions (for refinement comparisons) -/

/-- Modelled from the spec: an "open wait" — the winning tile completes one
of the decomposition's runs at either end, excluded only at the 1/9 suit
boundary (any run of the decomposition may serve as witness). -/
def specOpenWaitInPattern (pattern : MentsuPattern) (winningTile : Tile) : Bool :=
  pattern.mentsu.any (fun mentsu =>
    isShuntsu mentsu &&
    (match sortHand mentsu with
     | [a, _, c] =>
       (winningTile == a && !((parseTile c).1 == some 9)) ||
       (winningTile == c && !((parseTile a).1 == some 1))
     | _ => false))

/-- Modelled from the spec: the four pinfu conditions of the claim — closed
hand, an all-run decomposition whose pair is not a value tile, and the
winning tile completing an open wait in at least one such qualifying
decomposition. -/
def specPinfuConditions (hand : List Tile) (winningTile : Tile)
    (options : AgariOptions) : Bool :=
  options.isMenzen && (options.melds.getD []).isEmpty &&
  (getMentsuPatterns hand).any (fun pattern =>
    pattern.mentsu.all (fun mentsu => isShuntsu mentsu) &&
    !isYakuhai pattern.jantou (some options.bakaze) (some options.jikaze) &&
    specOpenWaitInPattern pattern winningTile)

/-! ## Concrete scenarios used by the claims -/

/-- Closed discard-win options (east round, south seat, no flags). -/
def ronBase : AgariOptions :=
  ⟨false, "ton", "nan", false, false, true, none, none, none⟩

/-- All thirteen orphan types plus a stray simple tile: not a winning shape. -/
def orphanPlusJunk : List Tile :=
  ["1m", "9m", "1p", "9p", "1s", "9s", "東", "南", "西", "北", "白", "發",
   "中", "5m"]

/-- 123345m + 678p + 678s + 99p: the win on 3m is an open wait via the
345m run, but 123m is the first group containing 3m. -/
def firstGroupHand : List Tile :=
  ["1m", "2m", "3m", "3m", "4m", "5m", "6p", "7p", "8p", "6s", "7s", "8s",
   "9p", "9p"]

/-- Ten concealed tiles plus a concealed quad of 白: the hand size the spec
mandates for one meld (13 − 3×1 = 10). -/
def quadHand : List Tile :=
  ["1m", "2m", "3m", "4p", "5p", "6p", "7s", "8s", "9s", "東"]

def quadMelds : List Meld := [⟨.ankan, ["白", "白", "白", "白"]⟩]

def quadOptions : AgariOptions :=
  ⟨false, "ton", "nan", false, false, true, some quadMelds, none, none⟩

/-- Eleven-tile full hand accompanying a lone concealed quad (ron on 2m). -/
def ankanRonHand : List Tile :=
  ["2m", "3m", "4m", "5p", "6p", "7p", "6s", "7s", "8s", "9s", "9s"]

/-- The test suite's sanshoku hand: 234m 234p 234s 567m 99p. -/
def sanshokuHand : List Tile :=
  ["2m", "3m", "4m", "2p", "3p", "4p", "2s", "3s", "4s", "5m", "6m", "7m",
   "9p", "9p"]

/-- Scenario A pinfu-tsumo hand of the spec and the test suite. -/
def scenarioAHand : List Tile :=
  ["1m", "1m", "2m", "3m", "4m", "4p", "5p", "6p", "2s", "3s", "4s", "6s",
   "7s", "8s"]

/-- Kokushi with a pair of 1m (thirteen-orphan win). -/
def kokushiHand : List Tile :=
  ["1m", "1m", "9m", "1p", "9p", "1s", "9s", "東", "南", "西", "北", "白",
   "發", "中"]

/-- Three concealed triplets plus a run and a pair. -/
def sanankouHand : List Tile :=
  ["1m", "1m", "1m", "3m", "3m", "3m", "5p", "5p", "5p", "6s", "7s", "8s",
   "9s", "9s"]

/-- Every name `detectYakuhai` can emit. -/
def yakuhaiNames : List String :=
  ["白", "發", "中",
   "場風・自風 東", "場風・自風 南", "場風・自風 西", "場風・自風 北",
   "場風 東", "場風 南", "場風 西", "場風 北",
   "自風 東", "自風 南", "自風 西", "自風 北"]

/-! ## Claims -/

/-! Sanity anchors mirroring the repository's own test expectations. -/

example : isWinningHand ["1m", "1m", "2m", "3m", "4m", "4p", "5p", "6p",
    "2s", "3s", "4s", "6s", "7s", "8s"] [] = true := by decide

example : isWinningHand ["1m", "1m", "1m", "2m", "2m", "2m", "3m", "3m",
    "3m", "4m", "4m", "4m", "5m", "5p"] [] = false := by decide

example : isPinfu ["1m", "1m", "2m", "3m", "4m", "4p", "5p", "6p",
    "2s", "3s", "4s", "6s", "7s", "8s"] "4p" true (some "ton") (some "nan") = true := by
  decide

example : isPinfu ["1m", "2m", "3m", "3m", "4m", "5m", "6p", "7p", "8p",
    "6s", "7s", "8s", "9p", "9p"] "3m" true (some "ton") (some "nan") = false := by
  decide

example :
    calculateScore ["1m", "1m", "2m", "3m", "4m", "5p", "6p", "6s", "7s",
      "8s", "2s", "3s", "4s"] "4p" baseOptions =
    .ok ⟨2, 20, "子: 400点、親: 700点（合計1500点）",
      [⟨"門前清自摸和", 1⟩, ⟨"平和", 1⟩]⟩ := by decide

example :
    calculateScore ["1m", "1m", "2p", "2p", "3s", "3s", "4m", "4m", "5p",
      "5p", "6s", "6s", "東"] "東"
      ⟨false, "ton", "nan", false, false, true, none, none, none⟩ =
    .ok ⟨2, 25, "1600点", [⟨"七対子", 2⟩]⟩ := by decide



/-- C1: `isWinningHand` must be true exactly for standard decompositions,
seven pairs, or thirteen orphans.  The code's inline thirteen-orphan branch
only demands that every orphan type be present and returns true for all
thirteen orphan types plus a stray 5m — a 14-tile set that is none of the
three shapes (no pair exists, so no standard decomposition; no seven pairs;
the file's own `isKokushi` rejects it). -/
theorem isWinningHand_accepts_nonwinning_hand :
    isWinningHand orphanPlusJunk [] = true ∧
    sevenPairsLike (countTiles orphanPlusJunk) = false ∧
    isKokushi orphanPlusJunk [] = false ∧
    checkNormalWinningHand (countTiles orphanPlusJunk) 4 = false := by decide

/-- C3: below the limit threshold the claim caps base points at the mangan
base 2000, so 4 han 40 fu should pay a non-dealer ron 2000 × 4 = 8000.  The
code applies no cap: base 40 × 2^6 = 2560 and the payment is 10300. -/
theorem calculateFinalScore_no_mangan_cap :
    calculateFinalScore 4 40 false false = "10300点" ∧
    40 * 2 ^ (2 + 4) = 2560 ∧ roundUp100 (2000 * 4) = 8000 := by decide

/-- C4: the claim expects the size check to accept a concealed hand of
13 − 3 × meldCount tiles.  With one quad meld the code instead demands
13 − 4 = 9 tiles, so the spec-mandated 10-tile hand is rejected with the
wrong-hand-size error. -/
theorem calculateScore_rejects_spec_hand_size_with_quad :
    quadHand.length = 13 - 3 * quadMelds.length ∧
    calculateScore quadHand "東" quadOptions =
      .error "手牌は9枚必要です（鳴き1回）" := by decide

/-- C5: the claim says a lone concealed quad does not disqualify the
closed-hand discard-win bonus (and the 30-fu floor is for exposed melds
only).  The code keys both on "any meld present": with no melds the hand
scores 20 + 10 (closed ron) → 30 fu; adding only a concealed quad of 白
(+32 fu) should give 62 → 70 fu, but the code drops the +10 and returns
60 fu. -/
theorem calculateFu_ankan_drops_closed_ron_bonus :
    calculateFu ankanRonHand "2m" false true none none quadMelds = 60 ∧
    calculateFu ankanRonHand "2m" false true none none [] = 30 := by decide

/-- C8: the test suite's three-colour-sequences hand (234m 234p 234s 567m
99p, ron 7m).  The engine has no three-colour detector at all: the returned
yaku list is exactly [平和], without the 三色同順 entry the repository's own
test expects. -/
theorem detectYaku_lacks_sanshoku :
    detectYaku sanshokuHand "7m" ronBase = [⟨"平和", 1⟩] ∧
    ((detectYaku sanshokuHand "7m" ronBase).map Yaku.name).contains "三色同順"
      = false := by decide

/-- C2 counterexample: for the 123345m hand won on 3m all four conditions of
the claim hold (closed, all-run decomposition, non-value pair 9p, and 3m is
an open wait via the 345m run), yet `detectYaku` does not award pinfu,
because the wait check inspects only the first group of the decomposition
containing 3m, which is 123m. -/
theorem detectYaku_pinfu_spec_counterexample :
    specPinfuConditions firstGroupHand "3m" ronBase = true ∧
    ((detectYaku firstGroupHand "3m" ronBase).map Yaku.name).contains "平和"
      = false := by decide

/-- Helper: `List.all` holds on an `ite` when it holds on both branches. -/
theorem all_ite {c : Prop} [Decidable c] (f : Yaku → Bool) (x y : List Yaku)
    (hx : x.all f = true) (hy : y.all f = true) :
    (if c then x else y).all f = true := by split <;> assumption

/-- C6: whenever any limit hand or instant-win condition is detected, the
returned yaku list consists of limit-hand entries only (each limit branch
returns a singleton immediately, before any ordinary yaku is evaluated). -/
theorem detectYaku_limit_exclusive (hand : List Tile) (winningTile : Tile)
    (options : AgariOptions)
    (h : limitDetected hand winningTile options = true) :
    (detectYaku hand winningTile options).all
      (fun y => limitNames.contains y.name) = true := by
  simp only [limitDetected, Bool.or_eq_true] at h
  rcases h with ((((((((((h | h) | h) | h) | h) | h) | h) | h) | h) | h) | h) <;>
  · simp only [detectYaku, h, if_true, eq_self_iff_true, if_pos]
    repeat first | decide | apply all_ite

/-- C6 witness: a kokushi hand triggers a limit branch and the output is
limit-only. -/
theorem detectYaku_limit_exclusive_witness :
    (detectYaku kokushiHand "1m" ronBase).all
      (fun y => limitNames.contains y.name) = true :=
  detectYaku_limit_exclusive kokushiHand "1m" ronBase (by decide)

/-! ## Membership reasoning for the ordinary yaku list -/

theorem mem_ite_nil {α : Type} {c : Prop} [Decidable c] {a : α} {l : List α} :
    (a ∈ if c then l else []) ↔ c ∧ a ∈ l := by
  split <;> simp [*]

theorem map_ite_nil {α β : Type} {c : Prop} [Decidable c] (f : α → β)
    (l : List α) : (if c then l else []).map f = if c then l.map f else [] := by
  split <;> rfl

theorem all_ite_nat {α : Type} {c : Prop} [Decidable c] (f : α → Bool)
    (x y : List α) (hx : x.all f = true) (hy : y.all f = true) :
    (if c then x else y).all f = true := by split <;> assumption

theorem bakaze_map_cases {s t : String} (h : BAKAZE_MAP s = some t) :
    t = "東" ∨ t = "南" ∨ t = "西" ∨ t = "北" := by
  unfold BAKAZE_MAP at h
  split_ifs at h <;> simp_all

theorem jikaze_map_cases {s t : String} (h : JIKAZE_MAP s = some t) :
    t = "東" ∨ t = "南" ∨ t = "西" ∨ t = "北" := by
  unfold JIKAZE_MAP at h
  exact bakaze_map_cases h

set_option maxHeartbeats 1000000 in
theorem yakuhai_names_all (hand : List Tile) (bakaze jikaze : String)
    (melds : List Meld) :
    (detectYakuhai hand bakaze jikaze melds).all
      (fun y => yakuhaiNames.contains y.name) = true := by
  simp only [detectYakuhai]
  rcases hbm : BAKAZE_MAP bakaze with _ | bt <;>
    rcases hjm : JIKAZE_MAP jikaze with _ | jt <;>
    (try rcases bakaze_map_cases hbm with rfl | rfl | rfl | rfl) <;>
    (try rcases jikaze_map_cases hjm with rfl | rfl | rfl | rfl) <;>
    simp only [hbm, hjm] <;>
    repeat' first
      | decide
      | apply all_ite_nat
      | (rw [List.all_append, Bool.and_eq_true]; constructor)

theorem notmem_yakuhai (n : String) (hn : yakuhaiNames.contains n = false)
    (hand : List Tile) (bakaze jikaze : String) (melds : List Meld) :
    n ∉ (detectYakuhai hand bakaze jikaze melds).map Yaku.name := by
  intro hmem
  rw [List.mem_map] at hmem
  obtain ⟨y, hy, rfl⟩ := hmem
  have hall := yakuhai_names_all hand bakaze jikaze melds
  rw [List.all_eq_true] at hall
  have h2 := hall y hy
  simp_all

/-- With no limit hand detected, `detectYaku` is the ordinary accumulation. -/
theorem detectYaku_eq_ordinary (hand : List Tile) (winningTile : Tile)
    (options : AgariOptions)
    (h : limitDetected hand winningTile options = false) :
    detectYaku hand winningTile options = ordinaryYaku hand winningTile options := by
  simp only [limitDetected, Bool.or_eq_false_iff] at h
  obtain ⟨⟨⟨⟨⟨⟨⟨⟨⟨⟨h1, h2⟩, h3⟩, h4⟩, h5⟩, h6⟩, h7⟩, h8⟩, h9⟩, h10⟩, h11⟩ := h
  simp only [detectYaku, h1, h2, h3, h4, h5, h6, h7, h8, h9, h10, h11,
    Bool.false_eq_true, if_false]

/-- C2 (amended): with no limit hand detected, `detectYaku` awards pinfu
exactly when the meld list is empty and `isPinfu` holds — i.e. the hand is
closed, some all-run decomposition has a non-value pair, and the first group
of that decomposition containing the winning tile completes an open wait
(rather than any group, as the original claim had it). -/
theorem detectYaku_pinfu_iff (hand : List Tile) (winningTile : Tile)
    (options : AgariOptions)
    (h : limitDetected hand winningTile options = false) :
    ("平和" ∈ (detectYaku hand winningTile options).map Yaku.name) ↔
      (isPinfu hand winningTile options.isMenzen (some options.bakaze)
        (some options.jikaze) = true ∧ options.melds.getD [] = []) := by
  rw [detectYaku_eq_ordinary hand winningTile options h]
  have hyk := notmem_yakuhai "平和" (by decide) hand options.bakaze
    options.jikaze (options.melds.getD [])
  simp +decide [ordinaryYaku, List.map_append, List.mem_append, map_ite_nil,
    mem_ite_nil, hyk, Bool.and_eq_true, Bool.not_eq_true',
    decide_eq_false_iff_not, Nat.pos_iff_ne_zero, List.length_eq_zero]

/-- C2 witness: the Scenario-A hand (ryanmen on 4p) earns pinfu. -/
theorem detectYaku_pinfu_iff_witness :
    "平和" ∈ (detectYaku scenarioAHand "4p" baseOptions).map Yaku.name :=
  (detectYaku_pinfu_iff scenarioAHand "4p" baseOptions (by decide)).mpr
    (by decide)

/-- C10: with no limit hand detected, the 2-han three-concealed-triplets
yaku is awarded exactly when at least three tile values occur at least three
times among the 14 concealed tiles; the criterion mentions neither the
winning tile nor the self-draw flag, so a triplet completed by the winning
discard still counts (unlike `isSuuankou` and the fu calculation). -/
theorem detectYaku_sanankou_iff (hand : List Tile) (winningTile : Tile)
    (options : AgariOptions)
    (h : limitDetected hand winningTile options = false) :
    ("三暗刻" ∈ (detectYaku hand winningTile options).map Yaku.name) ↔
      3 ≤ tripleKeyCount (countTiles hand) := by
  rw [detectYaku_eq_ordinary hand winningTile options h]
  have hyk := notmem_yakuhai "三暗刻" (by decide) hand options.bakaze
    options.jikaze (options.melds.getD [])
  simp +decide [ordinaryYaku, List.map_append, List.mem_append, map_ite_nil,
    mem_ite_nil, hyk, countAnkou]

/-- C10 witness: three concealed triplets on a discard win. -/
theorem detectYaku_sanankou_iff_witness :
    "三暗刻" ∈ (detectYaku sanankouHand "9s" ronBase).map Yaku.name :=
  (detectYaku_sanankou_iff sanankouHand "9s" ronBase (by decide)).mpr
    (by decide)

theorem dvd_ite {c : Prop} [Decidable c] {n a b : Nat} (ha : n ∣ a)
    (hb : n ∣ b) : n ∣ if c then a else b := by split <;> assumption

/-- C7: `calculateFu` returns 25 exactly on the seven-pairs shape and a
multiple of 10 otherwise (20 for closed tsumo pinfu, else the sum is rounded
up to the next 10 and possibly floored at 30, all multiples of 10). -/
theorem calculateFu_multiple_of_ten (hand : List Tile) (winningTile : Tile)
    (isTsumo isMenzen : Bool) (bakaze jikaze : Option String)
    (melds : List Meld) :
    (sevenPairsLike (countTiles hand) = true →
      calculateFu hand winningTile isTsumo isMenzen bakaze jikaze melds = 25) ∧
    (sevenPairsLike (countTiles hand) = false →
      10 ∣ calculateFu hand winningTile isTsumo isMenzen bakaze jikaze melds) := by
  constructor
  · intro h7
    simp only [calculateFu, h7, if_true]
  · intro h7
    simp only [calculateFu, h7, Bool.false_eq_true, if_false]
    apply dvd_ite
    · decide
    · apply dvd_ite
      · decide
      · exact dvd_mul_left 10 _

/-- C7 witness: the Scenario-A hand is not seven pairs and its fu is a
multiple of 10. -/
theorem calculateFu_multiple_of_ten_witness :
    10 ∣ calculateFu scenarioAHand "4p" false true (some "ton") (some "nan")
      [] :=
  (calculateFu_multiple_of_ten scenarioAHand "4p" false true (some "ton")
    (some "nan") []).2 (by decide)

/-! ## Counting lemmas for the decomposition search

Each group consumed by `checkMentsu` removes exactly three tiles, so a
successful search certifies that the multiset size is `3 × groups (+ 2 for
the pair)`; this is what makes quad hands unscorable (claim C9). -/

theorem total_cons (e : Tile × Nat) (rest : TileCounts) :
    totalCount (e :: rest) = e.2 + totalCount rest := by
  simp [totalCount]

theorem lookup_le_total (m : TileCounts) (t : Tile) :
    lookup m t ≤ totalCount m := by
  induction m with
  | nil => simp [lookup, totalCount]
  | cons e rest ih =>
    obtain ⟨k, v⟩ := e
    rw [total_cons]
    simp only [lookup]
    split
    · omega
    · omega

theorem lookup_decBy_ne (m : TileCounts) (k t : Tile) (n : Nat) (h : t ≠ k) :
    lookup (decBy m k n) t = lookup m t := by
  induction m with
  | nil => rfl
  | cons e rest ih =>
    obtain ⟨a, v⟩ := e
    simp only [decBy]
    by_cases hk : a = k
    · rw [if_pos hk]
      have ht : a ≠ t := fun he => h (he ▸ hk)
      simp only [lookup, if_neg ht]
    · rw [if_neg hk]
      simp only [lookup]
      by_cases ht : a = t
      · rw [if_pos ht, if_pos ht]
      · rw [if_neg ht, if_neg ht]
        exact ih

theorem total_decBy (m : TileCounts) (k : Tile) (n : Nat)
    (h : n ≤ lookup m k) : totalCount (decBy m k n) = totalCount m - n := by
  induction m with
  | nil =>
    simp only [lookup] at h
    interval_cases n
    rfl
  | cons e rest ih =>
    obtain ⟨a, v⟩ := e
    simp only [decBy]
    simp only [lookup] at h
    by_cases hk : a = k
    · rw [if_pos hk]
      rw [if_pos hk] at h
      rw [total_cons, total_cons]
      simp only
      omega
    · rw [if_neg hk]
      rw [if_neg hk] at h
      rw [total_cons, total_cons, ih h]
      have := lookup_le_total rest k
      omega

theorem total_eq_zero_of_all (m : TileCounts)
    (h : m.all (fun e => e.2 = 0) = true) : totalCount m = 0 := by
  induction m with
  | nil => rfl
  | cons e rest ih =>
    rw [List.all_cons, Bool.and_eq_true] at h
    rw [total_cons]
    have h1 : e.2 = 0 := by simpa using h.1
    have h2 := ih h.2
    omega

theorem digitVal_spec {c : Char} {n : Nat} (h : digitVal c = some n) :
    c.toNat = 48 + n ∧ n ≤ 9 := by
  unfold digitVal at h
  split at h
  · next hb =>
    simp only [Option.some.injEq] at h
    omega
  · cases h

theorem repr_digit_toNat {n : Nat} (h : n ≤ 9) :
    (Nat.repr n).data.map Char.toNat = [48 + n] := by
  interval_cases n <;> decide

theorem parseTile_some {t : Tile} {n : Nat} {s : String}
    (h : parseTile t = (some n, some s)) :
    ∃ c0 c1, t.data = [c0, c1] ∧ digitVal c0 = some n ∧ s = String.mk [c1] := by
  unfold parseTile at h
  rcases ht : t.data with _ | ⟨c0, _ | ⟨c1, _ | ⟨c2, rest⟩⟩⟩ <;> rw [ht] at h <;>
    simp only [Prod.mk.injEq, Option.some.injEq] at h
  · exact absurd h.1 (by simp)
  · exact absurd h.1 (by simp)
  · exact ⟨c0, c1, rfl, h.1, h.2.symm⟩
  · exact absurd h.1 (by simp)

/-- The three tiles of a candidate run have pairwise distinct first digits,
hence are pairwise distinct strings. -/
theorem shuntsu_tiles_distinct {t : Tile} {n : Nat} {s : String}
    (hp : parseTile t = (some n, some s)) (h7 : n ≤ 7) :
    Nat.repr (n + 1) ++ s ≠ t ∧ Nat.repr (n + 2) ++ s ≠ t ∧
    Nat.repr (n + 2) ++ s ≠ Nat.repr (n + 1) ++ s := by
  obtain ⟨c0, c1, hd, hdig, hs⟩ := parseTile_some hp
  obtain ⟨hc0, hn9⟩ := digitVal_spec hdig
  have ht : t.data.map Char.toNat = [48 + n, c1.toNat] := by
    rw [hd]; simp [hc0]
  have e1 : (Nat.repr (n + 1) ++ s).data.map Char.toNat
      = [48 + (n + 1), c1.toNat] := by
    rw [String.data_append, hs, List.map_append, repr_digit_toNat (by omega)]
    rfl
  have e2 : (Nat.repr (n + 2) ++ s).data.map Char.toNat
      = [48 + (n + 2), c1.toNat] := by
    rw [String.data_append, hs, List.map_append, repr_digit_toNat (by omega)]
    rfl
  refine ⟨fun he => ?_, fun he => ?_, fun he => ?_⟩
  · have := congrArg (fun x : String => x.data.map Char.toNat) he
    simp only [e1, ht] at this
    simp only [List.cons.injEq] at this
    omega
  · have := congrArg (fun x : String => x.data.map Char.toNat) he
    simp only [e2, ht] at this
    simp only [List.cons.injEq] at this
    omega
  · have := congrArg (fun x : String => x.data.map Char.toNat) he
    simp only [e1, e2] at this
    simp only [List.cons.injEq] at this
    omega

/-- A successful `checkMentsu` certifies the multiset holds exactly `3 × c`
tiles: a triplet removes three copies of one value, a run one copy of each
of three distinct values. -/
theorem checkMentsu_total (c : Nat) (m : TileCounts)
    (h : checkMentsu m c = true) : totalCount m = 3 * c := by
  induction c generalizing m with
  | zero =>
    simp only [checkMentsu] at h
    simpa using total_eq_zero_of_all m h
  | succ c ih =>
    simp only [checkMentsu, Bool.or_eq_true] at h
    rcases h with hk | hs
    · rw [List.any_eq_true] at hk
      obtain ⟨e, hmem, he⟩ := hk
      rw [Bool.and_eq_true] at he
      obtain ⟨h3, hrec⟩ := he
      rw [decide_eq_true_eq] at h3
      have htot := ih _ hrec
      rw [total_decBy m e.1 3 h3] at htot
      have hle := lookup_le_total m e.1
      omega
    · rw [List.any_eq_true] at hs
      obtain ⟨e, hmem, he⟩ := hs
      rw [Bool.and_eq_true] at he
      obtain ⟨h0, he⟩ := he
      rw [decide_eq_true_eq] at h0
      rcases hp : parseTile e.1 with ⟨no, so⟩
      rw [hp] at he
      match no, so, he with
      | some n, some s, he =>
        simp only [Bool.and_eq_true, decide_eq_true_eq] at he
        obtain ⟨⟨hn0, hn7⟩, ⟨h2, h3⟩, hrec⟩ := he
        obtain ⟨d1, d2, d3⟩ := shuntsu_tiles_distinct hp hn7
        set t := e.1 with hteq
        set t2 := Nat.repr (n + 1) ++ s with ht2
        set t3 := Nat.repr (n + 2) ++ s with ht3
        have htot := ih _ hrec
        have l2a : lookup (decBy m t 1) t2 = lookup m t2 :=
          lookup_decBy_ne m t t2 1 d1
        have l3a : lookup (decBy (decBy m t 1) t2 1) t3 = lookup m t3 := by
          rw [lookup_decBy_ne _ t2 t3 1 d3, lookup_decBy_ne m t t3 1 d2]
        have s1 : totalCount (decBy m t 1) = totalCount m - 1 :=
          total_decBy m t 1 (by omega)
        have s2 : totalCount (decBy (decBy m t 1) t2 1)
            = totalCount (decBy m t 1) - 1 :=
          total_decBy _ t2 1 (by omega)
        have s3 : totalCount (decBy (decBy (decBy m t 1) t2 1) t3 1)
            = totalCount (decBy (decBy m t 1) t2 1) - 1 :=
          total_decBy _ t3 1 (by omega)
        have b1 := lookup_le_total m t
        have b2 := lookup_le_total (decBy m t 1) t2
        have b3 := lookup_le_total (decBy (decBy m t 1) t2 1) t3
        omega

theorem checkNormal_total (tc : TileCounts) (r : Nat)
    (h : checkNormalWinningHand tc r = true) : totalCount tc = 3 * r + 2 := by
  rw [checkNormalWinningHand, List.any_eq_true] at h
  obtain ⟨e, hmem, he⟩ := h
  rw [Bool.and_eq_true] at he
  obtain ⟨h2, hrec⟩ := he
  rw [decide_eq_true_eq] at h2
  have htot := checkMentsu_total r _ hrec
  rw [total_decBy tc e.1 2 h2] at htot
  have hle := lookup_le_total tc e.1
  omega

theorem total_incr (m : TileCounts) (t : Tile) :
    totalCount (incr m t) = totalCount m + 1 := by
  induction m with
  | nil => rfl
  | cons e rest ih =>
    obtain ⟨k, v⟩ := e
    simp only [incr]
    split
    · rw [total_cons, total_cons]
      show v + 1 + totalCount rest = v + totalCount rest + 1
      omega
    · rw [total_cons, total_cons, ih]
      omega

theorem total_countTiles (l : List Tile) :
    totalCount (countTiles l) = l.length := by
  suffices h : ∀ m : TileCounts,
      totalCount (l.foldl (fun m t => incr m t) m) = totalCount m + l.length by
    simpa [countTiles, totalCount] using h []
  induction l with
  | nil => intro m; simp
  | cons t rest ih =>
    intro m
    simp only [List.foldl_cons, List.length_cons]
    rw [ih (incr m t), total_incr]
    omega

/-- With melds present the irregular shapes are skipped, and a hand whose
size is not `3 × (4 − meldCount) + 2` cannot decompose. -/
theorem isWinningHand_false_of_badcount (hand : List Tile) (melds : List Meld)
    (hm : melds ≠ [])
    (hlen : hand.length ≠ 3 * (4 - melds.length) + 2) :
    isWinningHand hand melds = false := by
  have h1 : decide (0 < melds.length) = true :=
    decide_eq_true (List.length_pos.mpr hm)
  simp only [isWinningHand, h1, Bool.not_true, Bool.false_and,
    Bool.false_eq_true, if_false]
  by_contra hc
  rw [Bool.not_eq_false] at hc
  have := checkNormal_total _ _ hc
  rw [total_countTiles] at this
  omega

theorem meld_sum_ge3 (melds : List Meld)
    (hwf : ∀ m ∈ melds, m.tiles.length = 3 ∨ m.tiles.length = 4) :
    3 * melds.length ≤ ((melds.map (fun m => m.tiles.length)).sum) := by
  induction melds with
  | nil => simp
  | cons m ms ih =>
    simp only [List.map_cons, List.sum_cons, List.length_cons]
    have h1 := hwf m (List.mem_cons_self m ms)
    have h2 := ih (fun x hx => hwf x (List.mem_cons_of_mem m hx))
    omega

theorem meld_sum_lower (melds : List Meld)
    (hwf : ∀ m ∈ melds, m.tiles.length = 3 ∨ m.tiles.length = 4)
    (hq : ∃ m ∈ melds, m.tiles.length = 4) :
    3 * melds.length + 1 ≤ ((melds.map (fun m => m.tiles.length)).sum) := by
  induction melds with
  | nil => simp at hq
  | cons m ms ih =>
    obtain ⟨mq, hmq, h4⟩ := hq
    simp only [List.map_cons, List.sum_cons, List.length_cons]
    have hm1 := hwf m (List.mem_cons_self m ms)
    rcases List.mem_cons.mp hmq with rfl | hmem
    · have := meld_sum_ge3 ms (fun x hx => hwf x (List.mem_cons_of_mem _ hx))
      omega
    · have := ih (fun x hx => hwf x (List.mem_cons_of_mem _ hx)) ⟨mq, hmem, h4⟩
      omega

/-- C9: with any quad among well-formed melds (3 or 4 tiles each), the size
check forces a concealed hand of `13 − (physical meld tiles)` tiles, so the
full hand holds `14 − 3a − 4b` tiles while a decomposition needs
`3 × (4 − a − b) + 2 = 14 − 3a − 3b`, one more per quad; the seven-pairs and
thirteen-orphan escapes are disabled by the melds, so `calculateScore` can
only return an error. -/
theorem calculateScore_quad_always_errors (hand : List Tile)
    (winningTile : Tile) (options : AgariOptions)
    (hwf : ∀ m ∈ options.melds.getD [], m.tiles.length = 3 ∨ m.tiles.length = 4)
    (hquad : ∃ m ∈ options.melds.getD [], m.tiles.length = 4) :
    (calculateScore hand winningTile options).isErr = true := by
  simp only [calculateScore]
  split
  · rfl
  next hsize =>
    split
    · rfl
    next hwt =>
      rw [not_not] at hsize
      have hmne : options.melds.getD [] ≠ [] := by
        obtain ⟨mq, hmq, _⟩ := hquad
        exact List.ne_nil_of_mem hmq
      have hlow := meld_sum_lower _ hwf hquad
      have hwin : isWinningHand (hand ++ [winningTile])
          (options.melds.getD []) = false := by
        apply isWinningHand_false_of_badcount _ _ hmne
        rw [List.length_append, List.length_singleton]
        omega
      rw [hwin]
      rfl

/-- C9 witness: a concealed quad of 白 with the spec-sized 10-tile hand is
rejected. -/
theorem calculateScore_quad_always_errors_witness :
    (calculateScore quadHand "東" quadOptions).isErr = true :=
  calculateScore_quad_always_errors quadHand "東" quadOptions (by decide)
    (by decide)
